/-
Verification development for the buffer-pool-manager repository.

The definitions below are a shallow embedding of the Rust sources:
  src/buffer_pool.rs            (BufferPoolManager, DiskManagerMock struct, constants)
  src/buffer_pool/page.rs       (Page operations, PageError)
  src/buffer_pool/clock_replacer.rs (ClockReplacer)
  src/buffer_pool/disk_manager_mock.rs (DiskManager impl for DiskManagerMock)

Modelling conventions:
  - Rust i32 values are modelled as Lean Int (all values reachable in this
    program are tiny, far from the i32 range, so wrap-around never occurs).
  - Rust HashMap is modelled as an association list with insert-replace
    semantics; only get/insert/remove/contains are used by the pool logic,
    none of which depend on iteration order.
  - Every &mut-style operation is modelled as explicit state passing.
  - A reachable Rust panic (the various panic calls, slice-index
    out-of-bounds, or divergence of the clock scan loop on a corrupt state)
    is modelled by the Fallible.fatal outcome, which carries no successor
    state.
  - The pool in the repository is only ever instantiated with
    DiskManagerMock (see main.rs); the embedding specializes the DiskManager
    trait object to that mock, keeping the pool code's structural checks on
    the mock's Result values.
-/
import Mathlib

namespace BufferPool

/-- src/buffer_pool.rs line 12: pool capacity. -/
def MAX_POOL_SIZE : Nat := 4

/-- src/buffer_pool.rs line 13: backing-store allocation ceiling. -/
def MAX_NUM_DISK_PAGES : Int := 15

/-- src/buffer_pool.rs line 14: bytes per page. -/
def PAGE_SIZE : Nat := 8

/-- src/buffer_pool.rs line 16. -/
abbrev FrameId := Int

/-- src/buffer_pool.rs line 17. -/
abbrev PageId := Int

/-- src/buffer_pool/page.rs lines 28-34. -/
inductive PageError where
  | PageNotFound
  | PageStillInUse
  | PoolExhausted
  | OutOfStorage
deriving DecidableEq

/-- src/buffer_pool.rs lines 19-25: a page record; data is a fixed-size
byte buffer, modelled as a list of bytes (as naturals). -/
structure Page where
  id : PageId
  pin_count : Int
  is_dirty : Bool
  data : List Nat
deriving DecidableEq

/-- src/buffer_pool/page.rs lines 6-14: fresh page with pin count 1,
clean, zero-filled buffer. -/
def Page.new (id : PageId) : Page :=
  { id := id, pin_count := 1, is_dirty := false, data := List.replicate PAGE_SIZE 0 }

/-- src/buffer_pool/page.rs lines 20-25: decrement the pin count if it is
positive; report whether the count is now zero. -/
def Page.dec_pin_count (p : Page) : Page × Bool :=
  let p2 := if p.pin_count > 0 then { p with pin_count := p.pin_count - 1 } else p
  (p2, p2.pin_count == 0)

/-- Outcome of an operation that may hit a Rust panic (or an index
out-of-bounds / non-terminating scan, which also abort the process):
fatal outcomes carry no successor state. -/
inductive Fallible (α : Type) where
  | fatal : Fallible α
  | ok : α → Fallible α
deriving DecidableEq

/-- Association-list lookup, modelling HashMap::get. -/
def alGet {α : Type} (m : List (Int × α)) (k : Int) : Option α :=
  (m.find? (fun e => e.1 == k)).map Prod.snd

/-- Association-list insert with replacement, modelling HashMap::insert. -/
def alInsert {α : Type} (m : List (Int × α)) (k : Int) (v : α) : List (Int × α) :=
  match m with
  | [] => [(k, v)]
  | (k2, v2) :: rest => if k2 == k then (k, v) :: rest else (k2, v2) :: alInsert rest k v

/-- Association-list removal of every binding of a key, modelling
HashMap::remove (keys are unique under alInsert). -/
def alRemove {α : Type} (m : List (Int × α)) (k : Int) : List (Int × α) :=
  m.filter (fun e => !(e.1 == k))

/-- src/buffer_pool/clock_replacer.rs lines 4-7. -/
structure ClockReplacer where
  list : List (FrameId × Bool)
  current : Nat
deriving DecidableEq

/-- src/buffer_pool/clock_replacer.rs lines 10-15. -/
def ClockReplacer.new : ClockReplacer := { list := [], current := 0 }

/-- src/buffer_pool/clock_replacer.rs lines 17-22: remove the entry at an
index, resetting the cursor to 0 when it falls past the shortened list. -/
def ClockReplacer.removeAt (r : ClockReplacer) (index : Nat) : ClockReplacer :=
  let l := r.list.eraseIdx index
  { list := l, current := if r.current ≥ l.length then 0 else r.current }

/-- The scan loop of ClockReplacer::victim (clock_replacer.rs lines 31-40),
written with explicit fuel. Each iteration either clears a reference bit
(strictly decreasing the number of set bits) or removes and returns the
entry under the cursor, so a fuel of (number of set bits + 1) always
suffices when the cursor is in range; running out of fuel or indexing out
of range corresponds to the Rust code diverging or aborting. -/
def victimGo : Nat → List (FrameId × Bool) → Nat → Option (FrameId × List (FrameId × Bool) × Nat)
  | 0, _, _ => none
  | fuel + 1, l, cur =>
    match l[cur]? with
    | some (fid, b) =>
      if b then
        victimGo fuel (l.set cur (fid, false)) ((cur + 1) % l.length)
      else
        let l2 := l.eraseIdx cur
        some (fid, l2, if cur ≥ l2.length then 0 else cur)
    | none => none

/-- src/buffer_pool/clock_replacer.rs lines 26-41: return None when no
frame is tracked, otherwise scan circularly from the cursor, clearing set
reference bits, and evict the first entry whose bit is clear. -/
def ClockReplacer.victim (r : ClockReplacer) : Fallible (Option FrameId × ClockReplacer) :=
  if r.list.isEmpty then
    .ok (none, r)
  else
    match victimGo (r.list.countP (fun e => e.2) + 1) r.list r.current with
    | some (fid, l, cur) => .ok (some fid, { list := l, current := cur })
    | none => .fatal

/-- src/buffer_pool/clock_replacer.rs lines 43-48: append a frame with its
reference bit set, unless it is already tracked. -/
def ClockReplacer.unpin (r : ClockReplacer) (id : FrameId) : ClockReplacer :=
  if r.list.any (fun e => e.1 == id) then r
  else { r with list := r.list ++ [(id, true)] }

/-- src/buffer_pool/clock_replacer.rs lines 50-54: drop a frame from the
tracked list if present. -/
def ClockReplacer.pin (r : ClockReplacer) (id : FrameId) : ClockReplacer :=
  match r.list.findIdx? (fun e => e.1 == id) with
  | some index => r.removeAt index
  | none => r

/-- src/buffer_pool.rs lines 42-45 and 47-54: the mock backing store. -/
structure DiskManagerMock where
  num_pages : Int
  pages : List (PageId × Page)
deriving DecidableEq

/-- DiskManagerMock::new (buffer_pool.rs lines 48-53). -/
def DiskManagerMock.new : DiskManagerMock := { num_pages := 0, pages := [] }

/-- src/buffer_pool/disk_manager_mock.rs lines 6-12. -/
def DiskManagerMock.read_page (m : DiskManagerMock) (id : PageId) : Except PageError Page :=
  match alGet m.pages id with
  | some p => .ok p
  | none => .error .PageNotFound

/-- src/buffer_pool/disk_manager_mock.rs lines 14-17: stores a clone of the
page (dirty flag and pin count included) under its id; always succeeds. -/
def DiskManagerMock.write_page (m : DiskManagerMock) (p : Page) : Except PageError DiskManagerMock :=
  .ok { m with pages := alInsert m.pages p.id p }

/-- src/buffer_pool/disk_manager_mock.rs lines 19-25: fail once num_pages
has reached the ceiling, otherwise increment it and mint it as the id. -/
def DiskManagerMock.allocate_page (m : DiskManagerMock) : Except PageError (PageId × DiskManagerMock) :=
  if m.num_pages ≥ MAX_NUM_DISK_PAGES then
    .error .OutOfStorage
  else
    .ok (m.num_pages + 1, { m with num_pages := m.num_pages + 1 })

/-- src/buffer_pool/disk_manager_mock.rs lines 27-29: drop the stored
bytes; num_pages is not decremented. -/
def DiskManagerMock.deallocate_page (m : DiskManagerMock) (id : PageId) : DiskManagerMock :=
  { m with pages := alRemove m.pages id }

/-- src/buffer_pool.rs lines 56-62: the pool state, specialized to the
mock backing store (the only implementation in the repository). -/
structure BufferPoolManager where
  disk_manager : DiskManagerMock
  replacer : ClockReplacer
  pages : List (Option Page)
  free_list : List FrameId
  page_table : List (PageId × FrameId)
deriving DecidableEq

/-- Result of a pool operation: either a fatal abort, or a Rust Result
paired with the pool state after the call (errors also mutate state). -/
abbrev PoolResult (α : Type) := Fallible (Except PageError α × BufferPoolManager)

/-- src/buffer_pool.rs lines 64-77: all frames empty and free. -/
def BufferPoolManager.new (dm : DiskManagerMock) : BufferPoolManager :=
  { disk_manager := dm
    replacer := ClockReplacer.new
    pages := List.replicate MAX_POOL_SIZE none
    free_list := (List.range MAX_POOL_SIZE).map Int.ofNat
    page_table := [] }

/-- src/buffer_pool.rs lines 206-220: prefer the head of the free list
(flag true); otherwise ask the replacer for a victim (flag false); fail
with PoolExhausted when neither yields a frame. -/
def BufferPoolManager.get_frame_id (m : BufferPoolManager) : PoolResult (FrameId × Bool) :=
  match m.free_list with
  | frame_id :: rest => .ok (.ok (frame_id, true), { m with free_list := rest })
  | [] =>
    match m.replacer.victim with
    | .fatal => .fatal
    | .ok (some frame_id, r) => .ok (.ok (frame_id, false), { m with replacer := r })
    | .ok (none, r) => .ok (.error .PoolExhausted, { m with replacer := r })

/-- src/buffer_pool.rs lines 222-232: swap the occupant out of the frame;
if it was dirty, return the result of writing it back (the page-table
entry is not touched on this path); if it was clean, remove its page-table
entry. -/
def BufferPoolManager.write_if_dirty (m : BufferPoolManager) (frame_id : FrameId) : PoolResult Unit :=
  match m.pages[frame_id.toNat]? with
  | none => .fatal
  | some existing_page =>
    let m1 := { m with pages := m.pages.set frame_id.toNat none }
    match existing_page with
    | some page =>
      if page.is_dirty then
        match m1.disk_manager.write_page page with
        | .ok dm => .ok (.ok (), { m1 with disk_manager := dm })
        | .error e => .ok (.error e, m1)
      else
        .ok (.ok (), { m1 with page_table := alRemove m1.page_table page.id })
    | none => .ok (.ok (), m1)

/-- src/buffer_pool.rs lines 79-102: acquire a frame, write back a dirty
victim, allocate a fresh id, install a new pinned page, record the
mapping, and return the installed page. -/
def BufferPoolManager.new_page (m : BufferPoolManager) : PoolResult Page :=
  match m.get_frame_id with
  | .fatal => .fatal
  | .ok (.error e, m1) => .ok (.error e, m1)
  | .ok (.ok (frame_id, is_from_free_list), m1) =>
    match (if is_from_free_list then .ok (.ok (), m1) else m1.write_if_dirty frame_id : PoolResult Unit) with
    | .fatal => .fatal
    | .ok (.error e, m2) => .ok (.error e, m2)
    | .ok (.ok _, m2) =>
      match m2.disk_manager.allocate_page with
      | .error e => .ok (.error e, m2)
      | .ok (page_id, dm) =>
        let m3 := { m2 with
          disk_manager := dm
          page_table := alInsert m2.page_table page_id frame_id
          pages := m2.pages.set frame_id.toNat (some (Page.new page_id)) }
        match m3.pages[frame_id.toNat]? with
        | some (some page) => .ok (.ok page, m3)
        | _ => .fatal

/-- src/buffer_pool.rs lines 104-138: on a page-table hit, bump the pin
count, notify the replacer, and return the occupant; on a miss, acquire a
frame, write back a dirty victim, read the page from the store, install it
with pin count 1, and record the mapping. -/
def BufferPoolManager.fetch_page (m : BufferPoolManager) (id : PageId) : PoolResult Page :=
  match alGet m.page_table id with
  | some frame_id =>
    match m.pages[frame_id.toNat]? with
    | some (some page) =>
      let page2 := { page with pin_count := page.pin_count + 1 }
      .ok (.ok page2, { m with
        pages := m.pages.set frame_id.toNat (some page2)
        replacer := m.replacer.pin frame_id })
    | _ => .fatal
  | none =>
    match m.get_frame_id with
    | .fatal => .fatal
    | .ok (.error e, m1) => .ok (.error e, m1)
    | .ok (.ok (frame_id, is_from_free_list), m1) =>
      match (if is_from_free_list then .ok (.ok (), m1) else m1.write_if_dirty frame_id : PoolResult Unit) with
      | .fatal => .fatal
      | .ok (.error e, m2) => .ok (.error e, m2)
      | .ok (.ok _, m2) =>
        match m2.disk_manager.read_page id with
        | .error e => .ok (.error e, m2)
        | .ok page =>
          let m3 := { m2 with
            page_table := alInsert m2.page_table id frame_id
            pages := m2.pages.set frame_id.toNat (some page) }
          match m3.pages[frame_id.toNat]? with
          | some (some p) =>
            let p2 := { p with pin_count := 1 }
            .ok (.ok p2, { m3 with pages := m3.pages.set frame_id.toNat (some p2) })
          | _ => .fatal

/-- src/buffer_pool.rs lines 140-154: decrement the occupant's pin count
(saturating at zero); when it reaches zero mark the frame
eviction-eligible; or-in the dirty flag. -/
def BufferPoolManager.unpin_page (m : BufferPoolManager) (id : PageId) (is_dirty : Bool) : PoolResult Unit :=
  match alGet m.page_table id with
  | some frame_id =>
    match m.pages[frame_id.toNat]? with
    | some (some page) =>
      let pr := page.dec_pin_count
      let r1 := if pr.2 then m.replacer.unpin frame_id else m.replacer
      let p2 := { pr.1 with is_dirty := pr.1.is_dirty || is_dirty }
      .ok (.ok (), { m with
        pages := m.pages.set frame_id.toNat (some p2)
        replacer := r1 })
    | _ => .fatal
  | none => .ok (.error .PageNotFound, m)

/-- src/buffer_pool.rs lines 156-171: write the occupant's bytes to the
store (the stored clone keeps the current dirty flag), then clear the
in-memory dirty flag; the pin-count decrement present in the original
upstream variant is commented out in this source. -/
def BufferPoolManager.flush_page (m : BufferPoolManager) (id : PageId) : PoolResult Unit :=
  match alGet m.page_table id with
  | some frame_id =>
    match m.pages[frame_id.toNat]? with
    | some (some page) =>
      match m.disk_manager.write_page page with
      | .ok dm =>
        .ok (.ok (), { m with
          disk_manager := dm
          pages := m.pages.set frame_id.toNat (some { page with is_dirty := false }) })
      | .error e => .ok (.error e, m)
    | _ => .fatal
  | none => .ok (.error .PageNotFound, m)

/-- The frame-order iteration of flush_all_pages (buffer_pool.rs lines
174-182): write every occupied frame's page, clearing its dirty flag,
stopping at the first store error (pages past the failure untouched). -/
def flushAllGo (dm : DiskManagerMock) : List (Option Page) → Except PageError Unit × DiskManagerMock × List (Option Page)
  | [] => (.ok (), dm, [])
  | none :: rest =>
    let r := flushAllGo dm rest
    (r.1, r.2.1, none :: r.2.2)
  | some page :: rest =>
    match dm.write_page page with
    | .ok dm1 =>
      let r := flushAllGo dm1 rest
      (r.1, r.2.1, some { page with is_dirty := false } :: r.2.2)
    | .error e => (.error e, dm, some page :: rest)

/-- src/buffer_pool.rs lines 173-184. -/
def BufferPoolManager.flush_all_pages (m : BufferPoolManager) : PoolResult Unit :=
  let r := flushAllGo m.disk_manager m.pages
  .ok (r.1, { m with disk_manager := r.2.1, pages := r.2.2 })

/-- src/buffer_pool.rs lines 186-204: refuse while the occupant is pinned;
otherwise unregister the frame from the replacer, retire the id at the
store, return the frame to the free list, and drop the page-table entry.
The frame slot itself is left holding the page object. -/
def BufferPoolManager.delete_page (m : BufferPoolManager) (id : PageId) : PoolResult Unit :=
  match alGet m.page_table id with
  | some frame_id =>
    match m.pages[frame_id.toNat]? with
    | some (some page) =>
      if page.pin_count > 0 then
        .ok (.error .PageStillInUse, m)
      else
        .ok (.ok (), { m with
          replacer := m.replacer.pin frame_id
          disk_manager := m.disk_manager.deallocate_page id
          free_list := m.free_list ++ [frame_id]
          page_table := alRemove m.page_table id })
    | _ => .fatal
  | none => .ok (.error .PageNotFound, m)

/-- A caller of new_page or fetch_page writing through the returned
mutable page handle: data is the only public field of Page, so the only
mutation a caller can perform is replacing the byte buffer of the page
resident in the frame the page table maps its id to. -/
def BufferPoolManager.set_page_data (m : BufferPoolManager) (id : PageId) (d : List Nat) : BufferPoolManager :=
  match alGet m.page_table id with
  | some frame_id =>
    match m.pages[frame_id.toNat]? with
    | some (some page) => { m with pages := m.pages.set frame_id.toNat (some { page with data := d }) }
    | _ => m
  | none => m

/-- One client-visible pool operation (the surface exposed by the server
layer plus a write through a returned page handle). -/
inductive Op where
  | newp : Op
  | fetch : PageId → Op
  | unpin : PageId → Bool → Op
  | flushp : PageId → Op
  | flushAll : Op
  | delete : PageId → Op
  | setData : PageId → List Nat → Op
deriving DecidableEq

/-- Successor state of a pool call, discarding the returned value; none on
a fatal outcome. -/
def stepOf {α : Type} : PoolResult α → Option BufferPoolManager
  | .fatal => none
  | .ok (_, s) => some s

/-- Apply one operation to the pool. -/
def applyOp (s : BufferPoolManager) : Op → Option BufferPoolManager
  | .newp => stepOf s.new_page
  | .fetch id => stepOf (s.fetch_page id)
  | .unpin id d => stepOf (s.unpin_page id d)
  | .flushp id => stepOf (s.flush_page id)
  | .flushAll => stepOf s.flush_all_pages
  | .delete id => stepOf (s.delete_page id)
  | .setData id d => some (s.set_page_data id d)

/-- Run a sequence of operations, stopping on a fatal outcome. -/
def run (s : BufferPoolManager) : List Op → Option BufferPoolManager
  | [] => some s
  | op :: ops =>
    match applyOp s op with
    | some s2 => run s2 ops
    | none => none

/-- The freshly constructed pool over a fresh mock store, as built by
main.rs. -/
def initPool : BufferPoolManager := BufferPoolManager.new DiskManagerMock.new

/-- Pool states reachable from the freshly constructed pool by any
sequence of operations (errors included; fatal outcomes have no successor
state). -/
inductive Reachable : BufferPoolManager → Prop where
  | init : Reachable initPool
  | newp {s r s2} : Reachable s → s.new_page = .ok (r, s2) → Reachable s2
  | fetch {s id r s2} : Reachable s → s.fetch_page id = .ok (r, s2) → Reachable s2
  | unpin {s id d r s2} : Reachable s → s.unpin_page id d = .ok (r, s2) → Reachable s2
  | flushp {s id r s2} : Reachable s → s.flush_page id = .ok (r, s2) → Reachable s2
  | flushAll {s r s2} : Reachable s → s.flush_all_pages = .ok (r, s2) → Reachable s2
  | delete {s id r s2} : Reachable s → s.delete_page id = .ok (r, s2) → Reachable s2
  | setData {s} (id d) : Reachable s → Reachable (s.set_page_data id d)

/-- Unpin a list of frames one after the other, with no intervening pin or
victim call (as in the clock_replacer.rs unit test). -/
def unpinAll (r : ClockReplacer) : List FrameId → ClockReplacer
  | [] => r
  | f :: fs => unpinAll (r.unpin f) fs

/-- The frames returned by n successive victim calls (stopping early if a
call returns no victim or aborts). -/
def victimSeq (r : ClockReplacer) : Nat → List FrameId
  | 0 => []
  | n + 1 =>
    match r.victim with
    | .ok (some f, r2) => f :: victimSeq r2 n
    | _ => []

/-- Run a concrete operation list from the fresh pool, defaulting to the
fresh pool itself if the run aborts (used only on runs shown not to
abort). -/
def runD (ops : List Op) : BufferPoolManager := (run initPool ops).getD initPool

/-- Every occupant of a frame slot has a non-negative pin count. -/
def PinsNonneg (s : BufferPoolManager) : Prop :=
  ∀ (i : Nat) (p : Page), s.pages[i]? = some (some p) → 0 ≤ p.pin_count

/-- The error returned by a non-fatal pool call, if any. -/
def errOf {α : Type} : PoolResult α → Option PageError
  | .ok (.error e, _) => some e
  | _ => none

/-- Number of frames holding a page whose identifier is recorded in the
page table (the spec's notion of resident frames). -/
def residentCount (s : BufferPoolManager) : Nat :=
  s.pages.countP (fun op =>
    match op with
    | some p => (alGet s.page_table p.id).isSome
    | none => false)

/-- Apply a sequence of deallocate_page calls to the mock store. -/
def deallocSeq (m : DiskManagerMock) : List PageId → DiskManagerMock
  | [] => m
  | id :: ids => deallocSeq (m.deallocate_page id) ids

/-- Fill all four frames, unpin page 1 marking it dirty, then create a
fifth page: the victim eviction writes page 1 back but keeps its
page-table entry. -/
def c1ops : List Op := [.newp, .newp, .newp, .newp, .unpin 1 true, .newp]

def c1s : BufferPoolManager := runD c1ops

/-- Create page 1, unpin it, delete it, then flush all pages. -/
def c2ops : List Op := [.newp, .unpin 1 false, .delete 1, .flushAll]

def c2pre : BufferPoolManager := runD [Op.newp, Op.unpin 1 false, Op.delete 1]

def c2s : BufferPoolManager := runD c2ops

/-- Fetch a page that exists neither in the pool nor on the store. -/
def c4s : BufferPoolManager := runD [Op.fetch 99]

/-- Reach a state where the clock replacer tracks frame 0 while frame 0
holds the pinned page 6: fill the pool, dirty-evict page 1 (leaving its
stale table entry), then delete via the stale entry and recreate. -/
def c5ops : List Op :=
  [.newp, .newp, .newp, .newp, .unpin 1 true, .newp, .unpin 5 false, .delete 1,
    .unpin 5 false, .newp]

def c5s : BufferPoolManager := runD c5ops

def c5after : BufferPoolManager := (stepOf c5s.new_page).getD initPool

/-- Fill the pool, unpin page 1 dirty, then fetch a nonexistent page: the
failed miss leaves frame 0 empty with page 1 still in the table. -/
def c7ops : List Op := [.newp, .newp, .newp, .newp, .unpin 1 true, .fetch 99]

def c7s : BufferPoolManager := runD c7ops

/-- Like the c5 trace, stopping just after delete_page removed frame 0
from the replacer while page 5 still occupies it with pin count 0. -/
def c9ops : List Op :=
  [.newp, .newp, .newp, .newp, .unpin 1 true, .newp, .unpin 5 false, .delete 1]

def c9sBad : BufferPoolManager := runD c9ops

def c9sAfter : BufferPoolManager := (stepOf (c9sBad.unpin_page 5 false)).getD initPool

def c9badPage : Page :=
  { id := 5, pin_count := 0, is_dirty := false, data := List.replicate PAGE_SIZE 0 }

def c9s : BufferPoolManager := runD [Op.newp, Op.unpin 1 false]

def c9page : Page :=
  { id := 1, pin_count := 0, is_dirty := false, data := List.replicate PAGE_SIZE 0 }

/-- Unpin, delete and recreate a page, burning one store allocation per
cycle while keeping three frames pinned. -/
def delCycle (k : PageId) : List Op := [.unpin k false, .delete k, .newp]

/-- Burn all 15 store allocations, then free one frame: the next create
hits the allocation ceiling with a frame available. -/
def c3ops : List Op :=
  [.newp, .newp, .newp, .newp]
    ++ (List.range 11).flatMap (fun i => delCycle (4 + Int.ofNat i))
    ++ [.unpin 15 false, .delete 15]

def c3sB : BufferPoolManager := runD c3ops

def c3sA : BufferPoolManager := (stepOf c3sB.new_page).getD initPool

/-- Burn all 15 store allocations while ending with every frame pinned. -/
def c10ops : List Op :=
  [.newp, .newp, .newp, .newp]
    ++ (List.range 11).flatMap (fun i => delCycle (4 + Int.ofNat i))

def c10s : BufferPoolManager := runD c10ops

theorem applyOp_reachable {s s2 : BufferPoolManager} {op : Op}
    (hs : Reachable s) (h : applyOp s op = some s2) : Reachable s2 := by
  cases op <;> simp only [applyOp, stepOf] at h
  case newp =>
    rcases hr : s.new_page with _ | ⟨r, s3⟩ <;> rw [hr] at h <;> simp at h
    exact h ▸ Reachable.newp hs hr
  case fetch id =>
    rcases hr : s.fetch_page id with _ | ⟨r, s3⟩ <;> rw [hr] at h <;> simp at h
    exact h ▸ Reachable.fetch hs hr
  case unpin id d =>
    rcases hr : s.unpin_page id d with _ | ⟨r, s3⟩ <;> rw [hr] at h <;> simp at h
    exact h ▸ Reachable.unpin hs hr
  case flushp id =>
    rcases hr : s.flush_page id with _ | ⟨r, s3⟩ <;> rw [hr] at h <;> simp at h
    exact h ▸ Reachable.flushp hs hr
  case flushAll =>
    rcases hr : s.flush_all_pages with _ | ⟨r, s3⟩ <;> rw [hr] at h <;> simp at h
    exact h ▸ Reachable.flushAll hs hr
  case delete id =>
    rcases hr : s.delete_page id with _ | ⟨r, s3⟩ <;> rw [hr] at h <;> simp at h
    exact h ▸ Reachable.delete hs hr
  case setData id d =>
    cases h
    exact Reachable.setData id d hs

theorem run_reachable {ops : List Op} :
    ∀ {s s2 : BufferPoolManager}, Reachable s → run s ops = some s2 → Reachable s2 := by
  induction ops with
  | nil => intro s s2 hs h; cases h; exact hs
  | cons op ops ih =>
    intro s s2 hs h
    simp only [run] at h
    rcases ha : applyOp s op with _ | s3 <;> rw [ha] at h
    · cases h
    · exact ih (applyOp_reachable hs ha) h

/-- Looking up a key right after inserting it yields the inserted value. -/
theorem alGet_alInsert_self {α : Type} (m : List (Int × α)) (k : Int) (v : α) :
    alGet (alInsert m k v) k = some v := by
  induction m with
  | nil => simp [alGet, alInsert]
  | cons e rest ih =>
    obtain ⟨k2, v2⟩ := e
    by_cases hk : k2 = k
    · subst hk
      simp [alGet, alInsert]
    · have hbeq : (k2 == k) = false := by simp [hk]
      simp only [alInsert, hbeq, Bool.false_eq_true, if_false]
      simp only [alGet, List.find?_cons, hbeq]
      exact ih


theorem pagesSet_pinsNonneg {l : List (Option Page)} {n : Nat} {v : Option Page}
    (hl : ∀ (i : Nat) (p : Page), l[i]? = some (some p) → 0 ≤ p.pin_count)
    (hv : ∀ p, v = some p → 0 ≤ p.pin_count) :
    ∀ (i : Nat) (p : Page), (l.set n v)[i]? = some (some p) → 0 ≤ p.pin_count := by
  intro i p h
  rcases eq_or_ne n i with rfl | hne
  · rw [List.getElem?_set_self'] at h
    rcases hln : l[n]? with _ | q <;> rw [hln] at h
    · cases h
    · have hvp : v = some p := by simpa using h
      exact hv p hvp
  · rw [List.getElem?_set_ne hne] at h
    exact hl i p h

theorem initPool_pinsNonneg : PinsNonneg initPool := by
  intro i p h
  have h2 : (List.replicate MAX_POOL_SIZE (none : Option Page))[i]? = some (some p) := h
  rw [List.getElem?_replicate] at h2
  split at h2 <;> simp at h2

theorem write_if_dirty_pinsNonneg {s : BufferPoolManager} {f : FrameId} {r : Except PageError Unit}
    {s2 : BufferPoolManager} (h : s.write_if_dirty f = .ok (r, s2)) (hs : PinsNonneg s) :
    PinsNonneg s2 := by
  have hnone : ∀ p : Page, (none : Option Page) = some p → 0 ≤ p.pin_count := by
    intro p hp; cases hp
  simp only [BufferPoolManager.write_if_dirty] at h
  split at h
  · cases h
  · split at h
    · split at h
      · split at h
        · injection h with h1
          injection h1 with h2 h3
          subst h3
          exact pagesSet_pinsNonneg hs hnone
        · injection h with h1
          injection h1 with h2 h3
          subst h3
          exact pagesSet_pinsNonneg hs hnone
      · injection h with h1
        injection h1 with h2 h3
        subst h3
        exact pagesSet_pinsNonneg hs hnone
    · injection h with h1
      injection h1 with h2 h3
      subst h3
      exact pagesSet_pinsNonneg hs hnone

theorem get_frame_id_pinsNonneg {s : BufferPoolManager} {r : Except PageError (FrameId × Bool)}
    {s2 : BufferPoolManager} (h : s.get_frame_id = .ok (r, s2)) (hs : PinsNonneg s) :
    PinsNonneg s2 := by
  simp only [BufferPoolManager.get_frame_id] at h
  split at h
  · injection h with h1
    injection h1 with h2 h3
    subst h3
    exact hs
  · split at h
    · cases h
    · injection h with h1
      injection h1 with h2 h3
      subst h3
      exact hs
    · injection h with h1
      injection h1 with h2 h3
      subst h3
      exact hs

theorem stepWrite_pinsNonneg {c : Bool} {m1 m2 : BufferPoolManager} {f : FrameId}
    {r : Except PageError Unit}
    (hw : (if c then (.ok (.ok (), m1) : PoolResult Unit) else m1.write_if_dirty f) = .ok (r, m2))
    (hm1 : PinsNonneg m1) : PinsNonneg m2 := by
  split at hw
  · injection hw with h1
    injection h1 with h2 h3
    subst h3
    exact hm1
  · exact write_if_dirty_pinsNonneg hw hm1

theorem new_page_pinsNonneg {s : BufferPoolManager} {r : Except PageError Page}
    {s2 : BufferPoolManager} (h : s.new_page = .ok (r, s2)) (hs : PinsNonneg s) :
    PinsNonneg s2 := by
  simp only [BufferPoolManager.new_page] at h
  split at h
  · cases h
  · next e m1 heq =>
    injection h with h1
    injection h1 with h2 h3
    subst h3
    exact get_frame_id_pinsNonneg heq hs
  · next frame_id is_free m1 heq =>
    have hm1 : PinsNonneg m1 := get_frame_id_pinsNonneg heq hs
    split at h
    · cases h
    · next e m2 hw =>
      injection h with h1
      injection h1 with h2 h3
      subst h3
      exact stepWrite_pinsNonneg hw hm1
    · next u m2 hw =>
      have hm2 : PinsNonneg m2 := stepWrite_pinsNonneg hw hm1
      split at h
      · injection h with h1
        injection h1 with h2 h3
        subst h3
        exact hm2
      · split at h
        · injection h with h1
          injection h1 with h2 h3
          subst h3
          exact pagesSet_pinsNonneg hm2 (by intro p hp; cases hp; norm_num [Page.new])
        · cases h

theorem fetch_page_pinsNonneg {s : BufferPoolManager} {id : PageId} {r : Except PageError Page}
    {s2 : BufferPoolManager} (h : s.fetch_page id = .ok (r, s2)) (hs : PinsNonneg s) :
    PinsNonneg s2 := by
  simp only [BufferPoolManager.fetch_page] at h
  split at h
  · next frame_id heq =>
    split at h
    · next page heq2 =>
      injection h with h1
      injection h1 with h2 h3
      subst h3
      refine pagesSet_pinsNonneg hs ?_
      intro p hp
      injection hp with hp2
      have h0 := hs frame_id.toNat page heq2
      rw [← hp2]
      simp only []
      omega
    · cases h
  · split at h
    · cases h
    · next e m1 heq =>
      injection h with h1
      injection h1 with h2 h3
      subst h3
      exact get_frame_id_pinsNonneg heq hs
    · next frame_id is_free m1 heq =>
      have hm1 : PinsNonneg m1 := get_frame_id_pinsNonneg heq hs
      split at h
      · cases h
      · next e m2 hw =>
        injection h with h1
        injection h1 with h2 h3
        subst h3
        exact stepWrite_pinsNonneg hw hm1
      · next u m2 hw =>
        have hm2 : PinsNonneg m2 := stepWrite_pinsNonneg hw hm1
        split at h
        · injection h with h1
          injection h1 with h2 h3
          subst h3
          exact hm2
        · split at h
          · next p3 heq3 =>
            injection h with h1
            injection h1 with h2 h3
            subst h3
            rw [List.set_set]
            refine pagesSet_pinsNonneg hm2 ?_
            intro p hp
            injection hp with hp2
            rw [← hp2]
            norm_num
          · cases h

theorem unpin_page_pinsNonneg {s : BufferPoolManager} {id : PageId} {d : Bool}
    {r : Except PageError Unit} {s2 : BufferPoolManager}
    (h : s.unpin_page id d = .ok (r, s2)) (hs : PinsNonneg s) : PinsNonneg s2 := by
  simp only [BufferPoolManager.unpin_page] at h
  split at h
  · next frame_id heq =>
    split at h
    · next page heq2 =>
      injection h with h1
      injection h1 with h2 h3
      subst h3
      refine pagesSet_pinsNonneg hs ?_
      intro p hp
      injection hp with hp2
      have h0 := hs frame_id.toNat page heq2
      rw [← hp2]
      simp only [Page.dec_pin_count]
      split <;> simp <;> omega
    · cases h
  · injection h with h1
    injection h1 with h2 h3
    subst h3
    exact hs

theorem flush_page_pinsNonneg {s : BufferPoolManager} {id : PageId}
    {r : Except PageError Unit} {s2 : BufferPoolManager}
    (h : s.flush_page id = .ok (r, s2)) (hs : PinsNonneg s) : PinsNonneg s2 := by
  simp only [BufferPoolManager.flush_page] at h
  split at h
  · next frame_id heq =>
    split at h
    · next page heq2 =>
      split at h
      · injection h with h1
        injection h1 with h2 h3
        subst h3
        refine pagesSet_pinsNonneg hs ?_
        intro p hp
        injection hp with hp2
        have h0 := hs frame_id.toNat page heq2
        rw [← hp2]
        exact h0
      · injection h with h1
        injection h1 with h2 h3
        subst h3
        exact hs
    · cases h
  · injection h with h1
    injection h1 with h2 h3
    subst h3
    exact hs

theorem flushAllGo_pinsNonneg (dm : DiskManagerMock) (l : List (Option Page))
    (hl : ∀ (i : Nat) (p : Page), l[i]? = some (some p) → 0 ≤ p.pin_count) :
    ∀ (i : Nat) (p : Page), (flushAllGo dm l).2.2[i]? = some (some p) → 0 ≤ p.pin_count := by
  induction l generalizing dm with
  | nil => intro i p h; simp [flushAllGo] at h
  | cons hd rest ih =>
    intro i p h
    cases hd with
    | none =>
      simp only [flushAllGo] at h
      cases i with
      | zero => simp at h
      | succ j =>
        simp only [List.getElem?_cons_succ] at h
        exact ih dm (fun j2 q hq => hl (j2 + 1) q (by simpa using hq)) j p h
    | some page =>
      simp only [flushAllGo, DiskManagerMock.write_page] at h
      cases i with
      | zero =>
        simp only [List.getElem?_cons_zero] at h
        injection h with h2
        injection h2 with h3
        rw [← h3]
        exact hl 0 page (by simp)
      | succ j =>
        simp only [List.getElem?_cons_succ] at h
        exact ih _ (fun j2 q hq => hl (j2 + 1) q (by simpa using hq)) j p h

theorem flush_all_pages_pinsNonneg {s : BufferPoolManager}
    {r : Except PageError Unit} {s2 : BufferPoolManager}
    (h : s.flush_all_pages = .ok (r, s2)) (hs : PinsNonneg s) : PinsNonneg s2 := by
  simp only [BufferPoolManager.flush_all_pages] at h
  injection h with h1
  injection h1 with h2 h3
  subst h3
  exact flushAllGo_pinsNonneg s.disk_manager s.pages hs

theorem delete_page_pinsNonneg {s : BufferPoolManager} {id : PageId}
    {r : Except PageError Unit} {s2 : BufferPoolManager}
    (h : s.delete_page id = .ok (r, s2)) (hs : PinsNonneg s) : PinsNonneg s2 := by
  simp only [BufferPoolManager.delete_page] at h
  split at h
  · split at h
    · split at h <;> (injection h with h1; injection h1 with h2 h3; subst h3; exact hs)
    · cases h
  · injection h with h1
    injection h1 with h2 h3
    subst h3
    exact hs

theorem set_page_data_pinsNonneg {s : BufferPoolManager} (id : PageId) (d : List Nat)
    (hs : PinsNonneg s) : PinsNonneg (s.set_page_data id d) := by
  simp only [BufferPoolManager.set_page_data]
  split
  · next frame_id heq =>
    split
    · next page heq2 =>
      refine pagesSet_pinsNonneg hs ?_
      intro p hp
      injection hp with hp2
      have h0 := hs frame_id.toNat page heq2
      rw [← hp2]
      exact h0
    · exact hs
  · exact hs



theorem unpinAll_fresh (fs : List FrameId) :
    ∀ (acc : List (FrameId × Bool)) (cur : Nat), fs.Nodup →
    (∀ f ∈ fs, ∀ e ∈ acc, e.1 ≠ f) →
    unpinAll ⟨acc, cur⟩ fs = ⟨acc ++ fs.map (fun f => (f, true)), cur⟩ := by
  induction fs with
  | nil => intro acc cur _ _; simp [unpinAll]
  | cons f fs ih =>
    intro acc cur hnd hdisj
    have hany : acc.any (fun e => e.1 == f) = false := by
      rw [List.any_eq_false]
      intro e he
      simpa using hdisj f (List.mem_cons_self f fs) e he
    have hstep : ClockReplacer.unpin ⟨acc, cur⟩ f = ⟨acc ++ [(f, true)], cur⟩ := by
      simp [ClockReplacer.unpin, hany]
    rw [unpinAll, hstep, ih (acc ++ [(f, true)]) cur (List.Nodup.of_cons hnd)]
    · simp
    · intro g hg e he
      rcases List.mem_append.mp he with h1 | h2
      · exact hdisj g (List.mem_cons_of_mem f hg) e h1
      · have he2 : e = (f, true) := by simpa using h2
        subst he2
        have hf : f ∉ fs := (List.nodup_cons.mp hnd).1
        intro hc
        have hc2 : f = g := hc
        exact hf (by rw [hc2]; exact hg)

theorem setAt_append (l1 : List (FrameId × Bool)) (a b : FrameId × Bool)
    (l2 : List (FrameId × Bool)) :
    (l1 ++ a :: l2).set l1.length b = l1 ++ b :: l2 := by
  rw [List.set_append_right _ _ (Nat.le_refl _)]
  simp

theorem victimGo_clearPhase : ∀ (bs : List FrameId), bs ≠ [] → ∀ (as : List FrameId),
    victimGo (bs.length + 1)
        (as.map (fun f => (f, false)) ++ bs.map (fun f => (f, true))) as.length
      = victimGo 1 ((as ++ bs).map (fun f => (f, false))) 0 := by
  intro bs
  induction bs with
  | nil => intro h; cases h rfl
  | cons b tail ih =>
    intro _ as
    have hlook :
        (as.map (fun f => (f, false)) ++ (b, true) :: tail.map (fun f => (f, true)))[as.length]?
          = some (b, true) := by
      rw [List.getElem?_append_right (by simp)]
      simp
    have hset :
        (as.map (fun f => (f, false)) ++ (b, true) :: tail.map (fun f => (f, true))).set
            as.length (b, false)
          = (as ++ [b]).map (fun f => (f, false)) ++ tail.map (fun f => (f, true)) := by
      have hs := setAt_append (as.map (fun f => (f, false))) (b, true) (b, false)
        (tail.map (fun f => (f, true)))
      simp only [List.length_map] at hs
      rw [hs]
      simp
    have hunfold :
        victimGo (tail.length + 1 + 1)
            (as.map (fun f => (f, false)) ++ (b, true) :: tail.map (fun f => (f, true)))
            as.length
          = victimGo (tail.length + 1)
              ((as ++ [b]).map (fun f => (f, false)) ++ tail.map (fun f => (f, true)))
              ((as.length + 1) %
                (as.map (fun f => (f, false)) ++ (b, true) :: tail.map (fun f => (f, true))).length) := by
      rw [victimGo, hlook]
      simp only [if_true, hset]
    simp only [List.map_cons, List.length_cons]
    rw [hunfold]
    cases tail with
    | nil =>
      have hmod : (as.length + 1) %
          (as.map (fun f => (f, false)) ++ [(b, true)]).length = 0 := by
        simp only [List.length_append, List.length_map, List.length_cons, List.length_nil]
        exact Nat.mod_self _
      simp only [List.map_nil, List.append_nil, List.length_nil] at hmod ⊢
      rw [hmod]
    | cons t ts =>
      have hmod : (as.length + 1) %
          (as.map (fun f => (f, false)) ++ (b, true) :: (t :: ts).map (fun f => (f, true))).length
            = as.length + 1 := by
        simp only [List.length_append, List.length_map, List.length_cons]
        exact Nat.mod_eq_of_lt (by omega)
      rw [hmod]
      have hih := ih (by simp) (as ++ [b])
      simp only [List.length_append, List.length_map, List.length_cons, List.length_nil,
        List.append_assoc, List.cons_append, List.nil_append] at hih ⊢
      rw [show as.length + 1 = as.length + (1 + 0) by omega] at hih
      rw [show as.length + (1 + 0) = as.length + 1 by omega] at hih
      exact hih

/-- One victim call on an all-clear clock list removes and returns the
head. -/
theorem victimGo_allFalse (f : FrameId) (rest : List FrameId) :
    victimGo 1 ((f :: rest).map (fun g => (g, false))) 0
      = some (f, rest.map (fun g => (g, false)), 0) := by
  simp [victimGo]

theorem victim_allTrue (f : FrameId) (rest : List FrameId) :
    ClockReplacer.victim ⟨(f :: rest).map (fun g => (g, true)), 0⟩
      = .ok (some f, ⟨rest.map (fun g => (g, false)), 0⟩) := by
  have hcount :
      ((f :: rest).map (fun g => (g, true))).countP (fun e => e.2) = rest.length + 1 := by
    simp [List.countP_map]
  have hempty : ((f :: rest).map (fun g => (g, true))).isEmpty = false := by simp
  have hgo := victimGo_clearPhase (f :: rest) (by simp) []
  simp only [List.map_nil, List.nil_append, List.length_nil, List.length_cons] at hgo
  rw [ClockReplacer.victim]
  simp only [hempty, Bool.false_eq_true, if_false, hcount]
  rw [hgo, victimGo_allFalse]

theorem victim_allFalse (f : FrameId) (rest : List FrameId) :
    ClockReplacer.victim ⟨(f :: rest).map (fun g => (g, false)), 0⟩
      = .ok (some f, ⟨rest.map (fun g => (g, false)), 0⟩) := by
  have hcount :
      ((f :: rest).map (fun g => (g, false))).countP (fun e => e.2) = 0 := by
    simp [List.countP_map]
  have hempty : ((f :: rest).map (fun g => (g, false))).isEmpty = false := by simp
  rw [ClockReplacer.victim]
  simp only [hempty, Bool.false_eq_true, if_false, hcount, Nat.zero_add]
  rw [victimGo_allFalse]

theorem victimSeq_allFalse (fs : List FrameId) :
    victimSeq ⟨fs.map (fun g => (g, false)), 0⟩ fs.length = fs := by
  induction fs with
  | nil => rfl
  | cons f rest ih =>
    show victimSeq _ (rest.length + 1) = _
    rw [victimSeq, victim_allFalse]
    show f :: victimSeq ⟨rest.map (fun g => (g, false)), 0⟩ rest.length = f :: rest
    rw [ih]

/-- C6: starting from an empty clock replacer, unpinning a list of
distinct frames and then calling victim repeatedly returns exactly those
frames in the order they were unpinned. -/
theorem C6_second_chance_order (fs : List FrameId) (hnd : fs.Nodup) :
    victimSeq (unpinAll ClockReplacer.new fs) fs.length = fs := by
  have hu := unpinAll_fresh fs [] 0 hnd (by intro f hf e he; cases he)
  show victimSeq (unpinAll ⟨[], 0⟩ fs) fs.length = fs
  rw [hu]
  simp only [List.nil_append]
  cases fs with
  | nil => rfl
  | cons f rest =>
    show victimSeq _ (rest.length + 1) = _
    rw [victimSeq, victim_allTrue]
    show f :: victimSeq ⟨rest.map (fun g => (g, false)), 0⟩ rest.length = f :: rest
    rw [victimSeq_allFalse]

/-- C6 witness: unpinning frames 1 through 6 in order and then calling
victim six times yields 1, 2, 3, 4, 5, 6; in particular the first three
victim calls yield 1, 2 and 3. -/
theorem C6_second_chance_order_witness :
    victimSeq (unpinAll ClockReplacer.new [1, 2, 3, 4, 5, 6]) 6 = [1, 2, 3, 4, 5, 6] :=
  C6_second_chance_order [1, 2, 3, 4, 5, 6] (by decide)


theorem runD_reachable (ops : List Op) (h : (run initPool ops).isSome = true) :
    Reachable (runD ops) := by
  rcases Option.isSome_iff_exists.mp h with ⟨s, hs⟩
  have hr := run_reachable Reachable.init hs
  simpa [runD, hs] using hr

/-- Setting a valid index always makes the lookup return the new value. -/
theorem getElem?_set_of_some {α : Type} {l : List α} {i : Nat} {a : α} (b : α)
    (h : l[i]? = some a) : (l.set i b)[i]? = some b := by
  rw [List.getElem?_set_self', h]
  rfl

/-- Any successful new_page call returns a fresh pinned page that is
installed in some frame and indexed in the page table. -/
theorem new_page_ok_elim {s s1 : BufferPoolManager} {page : Page}
    (h : s.new_page = .ok (.ok page, s1)) :
    ∃ frame_id : FrameId, page = Page.new page.id ∧
      alGet s1.page_table page.id = some frame_id ∧
      s1.pages[frame_id.toNat]? = some (some page) := by
  simp only [BufferPoolManager.new_page] at h
  split at h
  · cases h
  · injection h with h1
    injection h1 with h2 h3
    injection h2
  · next frame_id is_free m1 heq =>
    split at h
    · cases h
    · injection h with h1
      injection h1 with h2 h3
      injection h2
    · next u m2 hw =>
      split at h
      · injection h with h1
        injection h1 with h2 h3
        injection h2
      · next page_id dm halloc =>
        split at h
        · next page3 heq3 =>
          injection h with h1
          injection h1 with h2 h3
          injection h2 with h4
          subst h3
          subst h4
          refine ⟨frame_id, ?_, ?_, ?_⟩
          · rw [List.getElem?_set_self'] at heq3
            rcases hm2 : m2.pages[frame_id.toNat]? with _ | q <;> rw [hm2] at heq3
            · cases heq3
            · have hp3 : Page.new page_id = page3 := by simpa using heq3
              rw [← hp3]
              rfl
          · have hid : page3.id = page_id := by
              rw [List.getElem?_set_self'] at heq3
              rcases hm2 : m2.pages[frame_id.toNat]? with _ | q <;> rw [hm2] at heq3
              · cases heq3
              · have hp3 : Page.new page_id = page3 := by simpa using heq3
                rw [← hp3]
                rfl
            rw [hid]
            exact alGet_alInsert_self _ _ _
          · exact heq3
        · cases h

/-- Every reachable pool state has only non-negative pin counts. -/
theorem reachable_pinsNonneg {s : BufferPoolManager} (h : Reachable s) : PinsNonneg s := by
  induction h with
  | init => exact initPool_pinsNonneg
  | newp _ heq ih => exact new_page_pinsNonneg heq ih
  | fetch _ heq ih => exact fetch_page_pinsNonneg heq ih
  | unpin _ heq ih => exact unpin_page_pinsNonneg heq ih
  | flushp _ heq ih => exact flush_page_pinsNonneg heq ih
  | flushAll _ heq ih => exact flush_all_pages_pinsNonneg heq ih
  | delete _ heq ih => exact delete_page_pinsNonneg heq ih
  | setData id d _ ih => exact set_page_data_pinsNonneg id d ih

theorem get_frame_id_disk {m m1 : BufferPoolManager} {r : Except PageError (FrameId × Bool)}
    (h : m.get_frame_id = .ok (r, m1)) : m1.disk_manager = m.disk_manager := by
  simp only [BufferPoolManager.get_frame_id] at h
  split at h
  · injection h with h1
    injection h1 with h2 h3
    subst h3
    rfl
  · split at h
    · cases h
    · injection h with h1
      injection h1 with h2 h3
      subst h3
      rfl
    · injection h with h1
      injection h1 with h2 h3
      subst h3
      rfl

theorem write_if_dirty_num_pages {m m1 : BufferPoolManager} {f : FrameId}
    {r : Except PageError Unit} (h : m.write_if_dirty f = .ok (r, m1)) :
    m1.disk_manager.num_pages = m.disk_manager.num_pages := by
  simp only [BufferPoolManager.write_if_dirty] at h
  split at h
  · cases h
  · split at h
    · split at h
      · split at h
        · next dm hw =>
          injection h with h1
          injection h1 with h2 h3
          subst h3
          simp only [DiskManagerMock.write_page] at hw
          injection hw with hw2
          rw [← hw2]
        · injection h with h1
          injection h1 with h2 h3
          subst h3
          rfl
      · injection h with h1
        injection h1 with h2 h3
        subst h3
        rfl
    · injection h with h1
      injection h1 with h2 h3
      subst h3
      rfl

theorem stepWrite_num_pages {c : Bool} {m1 m2 : BufferPoolManager} {f : FrameId}
    {r : Except PageError Unit}
    (hw : (if c then (.ok (.ok (), m1) : PoolResult Unit) else m1.write_if_dirty f) = .ok (r, m2)) :
    m2.disk_manager.num_pages = m1.disk_manager.num_pages := by
  split at hw
  · injection hw with h1
    injection h1 with h2 h3
    subst h3
    rfl
  · exact write_if_dirty_num_pages hw

/-- unpin_page on a resident page whose pin count is already zero: the
count stays at zero, the dirty flag is or-ed in, and the frame is
(re)marked eviction-eligible; nothing else changes. -/
theorem unpin_zero_char {s : BufferPoolManager} {id : PageId} {f : FrameId} {page : Page}
    (d : Bool) (hget : alGet s.page_table id = some f)
    (hpages : s.pages[f.toNat]? = some (some page))
    (hzero : page.pin_count = 0) :
    s.unpin_page id d = .ok (.ok (), { s with
      pages := s.pages.set f.toNat (some { page with is_dirty := page.is_dirty || d })
      replacer := s.replacer.unpin f }) := by
  have hdec : page.dec_pin_count = (page, true) := by
    simp [Page.dec_pin_count, hzero]
  simp only [BufferPoolManager.unpin_page, hget, hpages, hdec, if_true]

/-- C1: falsified on the code (code bug). In the reachable state built by
creating pages 1-4, unpinning page 1 as dirty and creating page 5, the
eviction of dirty page 1 installed page 5 in frame 0 and wrote page 1
back, yet page 1's page-table entry is still present: write_if_dirty
returns directly after the write-back, skipping the entry removal that
runs only for clean occupants. -/
theorem C1_dirty_eviction_keeps_stale_entry :
    Reachable c1s ∧
    c1s.pages[(0 : Nat)]? = some (some (Page.new 5)) ∧
    alGet c1s.page_table 5 = some 0 ∧
    alGet c1s.page_table 1 = some 0 ∧
    (alGet c1s.disk_manager.pages 1).isSome = true :=
  ⟨runD_reachable c1ops (by decide), by decide, by decide, by decide, by decide⟩

/-- C2: falsified on the code (code bug). After creating page 1, unpinning
and deleting it, the store holds no copy of page 1 and the page table is
empty; a subsequent flush_all_pages nevertheless writes page 1's bytes to
the store, because delete_page returns the frame to the free list without
clearing the frame slot and flush_all_pages iterates over frame slots,
not the page table. -/
theorem C2_flush_all_writes_deleted_page :
    Reachable c2s ∧
    c2pre.page_table = [] ∧
    alGet c2pre.disk_manager.pages 1 = none ∧
    c2s.page_table = [] ∧
    (alGet c2s.disk_manager.pages 1).isSome = true :=
  ⟨runD_reachable c2ops (by decide), by decide, by decide, by decide, by decide⟩

/-- C4: falsified on the code (code bug). On the fresh pool, fetching an
identifier unknown to the store returns PageNotFound but permanently
removes frame 0 from the free list without installing a page, so
free-list length plus resident-frame count drops to 3 while the pool
capacity is 4. -/
theorem C4_frame_leak_breaks_capacity :
    Reachable c4s ∧
    errOf (initPool.fetch_page 99) = some .PageNotFound ∧
    stepOf (initPool.fetch_page 99) = some c4s ∧
    c4s.free_list.length + residentCount c4s = 3 ∧
    MAX_POOL_SIZE = 4 :=
  ⟨runD_reachable [Op.fetch 99] (by decide), by decide, by decide, by decide, by decide⟩

/-- C5: falsified on the code (code bug). In the reachable state c5s,
frame 0 holds page 6 with pin count 1, yet the clock replacer still
tracks frame 0: the next victim call selects frame 0, and the next
new_page call evicts the pinned page 6 and installs page 7 in its
place. -/
theorem C5_pinned_page_evicted :
    Reachable c5s ∧
    c5s.pages[(0 : Nat)]? = some (some (Page.new 6)) ∧
    (Page.new 6).pin_count = 1 ∧
    c5s.replacer.victim = .ok (some 0, ⟨[], 0⟩) ∧
    c5s.new_page = .ok (.ok (Page.new 7), c5after) ∧
    c5after.pages[(0 : Nat)]? = some (some (Page.new 7)) :=
  ⟨runD_reachable c5ops (by decide), by decide, by decide, by rfl, by rfl, by decide⟩

/-- C3 counterexample: in the reachable state c3sB the allocation ceiling
is reached and the free list holds exactly frame 3; the next new_page
call returns OutOfStorage with the page table unchanged, but the free
list ends up empty instead of unchanged - the popped frame is dropped. -/
theorem C3_counterexample_free_list_changes :
    Reachable c3sB ∧
    c3sB.disk_manager.num_pages = MAX_NUM_DISK_PAGES ∧
    c3sB.free_list = [3] ∧
    c3sB.new_page = .ok (.error .OutOfStorage, c3sA) ∧
    c3sA.free_list = [] ∧
    c3sA.page_table = c3sB.page_table :=
  ⟨runD_reachable c3ops (by decide), by decide, by decide, by rfl, by decide, by decide⟩

/-- C3 amended: when the Backing Store ceiling is reached and the free
list is nonempty, new_page returns OutOfStorage and leaves the page table
(and every component except the free list) unchanged, but the head frame
is popped off the free list and not restored. -/
theorem C3_out_of_storage_effect (m : BufferPoolManager) (f : FrameId) (rest : List FrameId)
    (hfree : m.free_list = f :: rest)
    (hfull : m.disk_manager.num_pages ≥ MAX_NUM_DISK_PAGES) :
    m.new_page = .ok (.error .OutOfStorage, { m with free_list := rest }) := by
  simp only [BufferPoolManager.new_page, BufferPoolManager.get_frame_id, hfree, if_true]
  simp only [DiskManagerMock.allocate_page, if_pos hfull]

theorem C3_out_of_storage_effect_witness :
    c3sB.new_page = .ok (.error .OutOfStorage, { c3sB with free_list := [] }) :=
  C3_out_of_storage_effect c3sB 3 [] (by decide) (by decide)

/-- C10 counterexample: after exactly 15 successful allocations, with all
four frames pinned, the next new_page returns PoolExhausted rather than
OutOfStorage - the claim's "every later new_page returns OutOfStorage"
fails when no frame is available. -/
theorem C10_counterexample_pool_exhausted :
    Reachable c10s ∧
    c10s.disk_manager.num_pages = MAX_NUM_DISK_PAGES ∧
    errOf c10s.new_page = some .PoolExhausted ∧
    some PageError.PoolExhausted ≠ some PageError.OutOfStorage :=
  ⟨runD_reachable c10ops (by decide), by decide, by decide, by decide⟩

/-- C10 amended: deallocate_page never restores allocation budget (the
ceiling counts cumulative allocations), so once num_pages has reached
MAX_NUM_DISK_PAGES every later allocate_page - after any sequence of
deallocations - returns OutOfStorage, and a later new_page can never
succeed (it fails with OutOfStorage or, when every frame is pinned,
PoolExhausted). -/
theorem C10_ceiling_cumulative :
    (∀ (m : DiskManagerMock) (ids : List PageId),
      (deallocSeq m ids).num_pages = m.num_pages ∧
      (m.num_pages ≥ MAX_NUM_DISK_PAGES →
        (deallocSeq m ids).allocate_page = .error .OutOfStorage)) ∧
    (∀ m : BufferPoolManager, m.disk_manager.num_pages ≥ MAX_NUM_DISK_PAGES →
      ∀ (p : Page) (s2 : BufferPoolManager), m.new_page ≠ .ok (.ok p, s2)) := by
  have hnum : ∀ (m : DiskManagerMock) (ids : List PageId),
      (deallocSeq m ids).num_pages = m.num_pages := by
    intro m ids
    induction ids generalizing m with
    | nil => rfl
    | cons id ids ih => rw [deallocSeq, ih]; rfl
  constructor
  · intro m ids
    refine ⟨hnum m ids, fun hfull => ?_⟩
    rw [DiskManagerMock.allocate_page, hnum m ids, if_pos hfull]
  · intro m hfull p s2 hcontra
    simp only [BufferPoolManager.new_page] at hcontra
    split at hcontra
    · cases hcontra
    · injection hcontra with h1
      injection h1 with h2
      injection h2
    · next frame_id is_free m1 heq =>
      have hd1 : m1.disk_manager = m.disk_manager := get_frame_id_disk heq
      split at hcontra
      · cases hcontra
      · injection hcontra with h1
        injection h1 with h2
        injection h2
      · next u m2 hw =>
        have hd2 : m2.disk_manager.num_pages = m1.disk_manager.num_pages :=
          stepWrite_num_pages hw
        split at hcontra
        · injection hcontra with h1
          injection h1 with h2
          injection h2
        · next page_id dm halloc =>
          have hfull2 : m2.disk_manager.num_pages ≥ MAX_NUM_DISK_PAGES := by
            rw [hd2, hd1]; exact hfull
          rw [DiskManagerMock.allocate_page, if_pos hfull2] at halloc
          injection halloc

theorem C10_ceiling_cumulative_witness :
    ((deallocSeq c10s.disk_manager [1, 2, 3]).num_pages = c10s.disk_manager.num_pages ∧
      (c10s.disk_manager.num_pages ≥ MAX_NUM_DISK_PAGES →
        (deallocSeq c10s.disk_manager [1, 2, 3]).allocate_page = .error .OutOfStorage)) ∧
    c10s.new_page ≠ .ok (.ok (Page.new 16), initPool) :=
  ⟨C10_ceiling_cumulative.1 c10s.disk_manager [1, 2, 3],
   C10_ceiling_cumulative.2 c10s (by decide) (Page.new 16) initPool⟩

/-- C7 counterexample: in the reachable state c7s (pool filled, page 1
unpinned dirty, then a fetch of an id unknown to the store), page 1 is
still recorded as resident at frame 0, but frame 0 is empty: flush_page 1
hits the frame's vacancy check and aborts (Rust panic) instead of writing
the page and clearing its dirty flag. -/
theorem C7_counterexample_flush_aborts :
    Reachable c7s ∧
    alGet c7s.page_table 1 = some 0 ∧
    c7s.pages[(0 : Nat)]? = some none ∧
    c7s.flush_page 1 = .fatal :=
  ⟨runD_reachable c7ops (by decide), by decide, by decide, by rfl⟩

/-- C7 amended: flush_page returns PageNotFound and changes nothing when
the id is not resident; when the id is resident and its frame actually
holds a page, it stores the page's current bytes under its id (the mock
write never fails, so no error is propagated), clears the in-memory dirty
flag, and leaves the pin count and every other pool component
unchanged. -/
theorem C7_flush_effect :
    (∀ (s : BufferPoolManager) (id : PageId), alGet s.page_table id = none →
      s.flush_page id = .ok (.error .PageNotFound, s)) ∧
    (∀ (s : BufferPoolManager) (id : PageId) (f : FrameId) (page : Page),
      alGet s.page_table id = some f →
      s.pages[f.toNat]? = some (some page) →
      s.flush_page id = .ok (.ok (), { s with
        disk_manager := { s.disk_manager with
          pages := alInsert s.disk_manager.pages page.id page }
        pages := s.pages.set f.toNat (some { page with is_dirty := false }) })) := by
  constructor
  · intro s id hmiss
    simp only [BufferPoolManager.flush_page, hmiss]
  · intro s id f page hget hpages
    simp only [BufferPoolManager.flush_page, hget, hpages, DiskManagerMock.write_page]

theorem C7_flush_effect_witness :
    initPool.flush_page 42 = .ok (.error .PageNotFound, initPool) ∧
    (runD [Op.newp]).flush_page 1 = .ok (.ok (), { runD [Op.newp] with
      disk_manager := { (runD [Op.newp]).disk_manager with
        pages := alInsert (runD [Op.newp]).disk_manager.pages (Page.new 1).id (Page.new 1) }
      pages := (runD [Op.newp]).pages.set (Int.toNat 0)
        (some { Page.new 1 with is_dirty := false }) }) :=
  ⟨C7_flush_effect.1 initPool 42 (by decide),
   C7_flush_effect.2 (runD [Op.newp]) 1 0 (Page.new 1) (by decide) (by decide)⟩

/-- C9 counterexample: in the reachable state c9sBad, page 5 is resident
at frame 0 with pin count 0 (and frame 0 sits on the free list after the
delete through the stale entry for page 1); unpin_page 5 returns Ok and
keeps the count at 0, but it mutates more than the dirty flag: it
re-appends frame 0 to the clock replacer's tracked list. -/
theorem C9_counterexample_unpin_changes_replacer :
    Reachable c9sBad ∧
    alGet c9sBad.page_table 5 = some 0 ∧
    c9sBad.pages[(0 : Nat)]? = some (some c9badPage) ∧
    c9badPage.pin_count = 0 ∧
    c9sBad.unpin_page 5 false = .ok (.ok (), c9sAfter) ∧
    c9sAfter.pages = c9sBad.pages ∧
    c9sAfter.replacer ≠ c9sBad.replacer :=
  ⟨runD_reachable c9ops (by decide), by decide, by decide, by decide, by rfl,
   by decide, by decide⟩

/-- C9 amended: in every reachable pool state every frame occupant's pin
count is non-negative, and unpin_page on a resident page whose occupant's
pin count is already 0 returns Ok, leaves the count at 0 (never driving
it below zero), and changes nothing except possibly the occupant's dirty
flag and re-marking the frame eviction-eligible in the clock replacer. -/
theorem C9_pin_floor :
    (∀ s : BufferPoolManager, Reachable s → PinsNonneg s) ∧
    (∀ (s : BufferPoolManager) (id : PageId) (f : FrameId) (page : Page) (d : Bool),
      alGet s.page_table id = some f →
      s.pages[f.toNat]? = some (some page) →
      page.pin_count = 0 →
      s.unpin_page id d = .ok (.ok (), { s with
        pages := s.pages.set f.toNat (some { page with is_dirty := page.is_dirty || d })
        replacer := s.replacer.unpin f })) :=
  ⟨fun _ h => reachable_pinsNonneg h,
   fun _ _ _ _ d hget hpages hzero => unpin_zero_char d hget hpages hzero⟩

theorem C9_pin_floor_witness :
    PinsNonneg initPool ∧
    c9s.unpin_page 1 false = .ok (.ok (), { c9s with
      pages := c9s.pages.set (Int.toNat 0)
        (some { c9page with is_dirty := c9page.is_dirty || false })
      replacer := c9s.replacer.unpin 0 }) :=
  ⟨C9_pin_floor.1 initPool Reachable.init,
   C9_pin_floor.2 c9s 1 0 c9page false (by decide) (by decide) (by decide)⟩

/-- fetch_page on a resident page whose frame holds it: the pin count is
bumped, the replacer is notified, and the bumped page is returned. -/
theorem fetch_hit_char {s : BufferPoolManager} {id : PageId} {f : FrameId} {page : Page}
    (hget : alGet s.page_table id = some f)
    (hpages : s.pages[f.toNat]? = some (some page)) :
    s.fetch_page id = .ok (.ok { page with pin_count := page.pin_count + 1 },
      { s with
        pages := s.pages.set f.toNat (some { page with pin_count := page.pin_count + 1 })
        replacer := s.replacer.pin f }) := by
  simp only [BufferPoolManager.fetch_page, hget, hpages]

/-- C8: starting from any state, create a page, write bytes through the
returned handle, flush it, then fetch it: the flush succeeds and leaves
the resident copy clean with exactly the written bytes, and the fetch
returns a page holding those bytes. -/
theorem C8_round_trip {s s1 : BufferPoolManager} {page : Page} (d : List Nat)
    (h : s.new_page = .ok (.ok page, s1)) :
    ∃ s3 p s4,
      (s1.set_page_data page.id d).flush_page page.id = .ok (.ok (), s3) ∧
      s3.fetch_page page.id = .ok (.ok p, s4) ∧
      p.data = d ∧ p.id = page.id ∧
      ∃ f q, alGet s3.page_table page.id = some f ∧
        s3.pages[f.toNat]? = some (some q) ∧ q.is_dirty = false ∧ q.data = d := by
  obtain ⟨f, hpage, hget, hpages⟩ := new_page_ok_elim h
  have hs2 : s1.set_page_data page.id d
      = { s1 with pages := s1.pages.set f.toNat (some { page with data := d }) } := by
    simp only [BufferPoolManager.set_page_data, hget, hpages]
  have hs2pages : (s1.pages.set f.toNat (some { page with data := d }))[f.toNat]?
      = some (some { page with data := d }) :=
    getElem?_set_of_some _ hpages
  have hflush0 : (s1.set_page_data page.id d).flush_page page.id
      = .ok (.ok (), { s1 with
          disk_manager := { s1.disk_manager with
            pages := alInsert s1.disk_manager.pages page.id { page with data := d } }
          pages := (s1.pages.set f.toNat (some { page with data := d })).set f.toNat
            (some { page with data := d, is_dirty := false }) }) := by
    rw [hs2]
    simp only [BufferPoolManager.flush_page, hget, hs2pages, DiskManagerMock.write_page]
  obtain ⟨s3, hflush, hs3table, hs3list⟩ :
      ∃ s3, (s1.set_page_data page.id d).flush_page page.id = .ok (.ok (), s3) ∧
        s3.page_table = s1.page_table ∧
        s3.pages = (s1.pages.set f.toNat (some { page with data := d })).set f.toNat
          (some { page with data := d, is_dirty := false }) :=
    ⟨_, hflush0, rfl, rfl⟩
  have hget3 : alGet s3.page_table page.id = some f := by
    rw [hs3table]; exact hget
  have hs3pages : s3.pages[f.toNat]? = some (some { page with data := d, is_dirty := false }) := by
    rw [hs3list]
    exact getElem?_set_of_some _ hs2pages
  exact ⟨s3, _, _, hflush, fetch_hit_char hget3 hs3pages, rfl, rfl, f, _, hget3, hs3pages,
    rfl, rfl⟩

theorem C8_round_trip_witness :
    ∃ s3 p s4,
      ((runD [Op.newp]).set_page_data (Page.new 1).id [9, 8, 7, 6, 5, 4, 3, 2]).flush_page
          (Page.new 1).id = .ok (.ok (), s3) ∧
      s3.fetch_page (Page.new 1).id = .ok (.ok p, s4) ∧
      p.data = [9, 8, 7, 6, 5, 4, 3, 2] ∧ p.id = (Page.new 1).id ∧
      ∃ f q, alGet s3.page_table (Page.new 1).id = some f ∧
        s3.pages[f.toNat]? = some (some q) ∧ q.is_dirty = false ∧
        q.data = [9, 8, 7, 6, 5, 4, 3, 2] :=
  C8_round_trip [9, 8, 7, 6, 5, 4, 3, 2]
    (show initPool.new_page = .ok (.ok (Page.new 1), runD [Op.newp]) by rfl)

end BufferPool
